import Mathlib

/-!
Verification development for the `amat` message-analytics library
(`src/amat.py`, with the extraction script `src/sql2pandas.py`).

The Python code operates on a pandas DataFrame whose rows are message
records.  We embed the enriched table as `List Rec`, instants as epoch
seconds (`Int`, matching pandas' integer-backed datetimes), and the
library functions (`load_data`, `filt_date`, `filt_any`, `search`,
`context_search`, `breakdown`, `weekly_heatmap`) as Lean functions on
those lists.  Calendar-field derivation uses the standard
days-from-civil / civil-from-days algorithms, which agree with the
proleptic Gregorian calendar used by `datetime`.
-/

attribute [local semireducible] Rat.mul Rat.inv Rat.add Rat.sub

namespace Amat

/-! ## Calendar arithmetic (proleptic Gregorian, epoch 1970-01-01) -/

/-- Civil date from a count of days since 1970-01-01 (standard algorithm). -/
def civilFromDays (z : Int) : Int × Nat × Nat :=
  let z' := z + 719468
  let era : Int := Int.ediv z' 146097
  let doe : Nat := (Int.emod z' 146097).toNat
  let yoe : Nat := (doe - doe / 1460 + doe / 36524 - doe / 146096) / 365
  let y : Int := (yoe : Int) + era * 400
  let doy : Nat := doe - (365 * yoe + yoe / 4 - yoe / 100)
  let mp : Nat := (5 * doy + 2) / 153
  let d : Nat := doy - (153 * mp + 2) / 5 + 1
  let m : Nat := if mp < 10 then mp + 3 else mp - 9
  (y + (if m ≤ 2 then 1 else 0), m, d)

/-- Days since 1970-01-01 of a civil date (standard algorithm). -/
def daysFromCivil (y : Int) (m d : Nat) : Int :=
  let y' := y - (if m ≤ 2 then 1 else 0)
  let era : Int := Int.ediv y' 400
  let yoe : Nat := (y' - era * 400).toNat
  let doy : Nat := (153 * (if 2 < m then m - 3 else m + 9) + 2) / 5 + d - 1
  let doe : Nat := yoe * 365 + yoe / 4 - yoe / 100 + doy
  era * 146097 + (doe : Int) - 719468

/-- Python's `datetime.weekday()`: 0 = Monday … 6 = Sunday.
1970-01-01 was a Thursday (weekday 3). -/
def weekdayOfDays (d : Int) : Nat := (Int.emod (d + 3) 7).toNat

/-- Broken-down calendar fields of an instant. -/
structure DTF where
  year : Int
  month : Nat
  day : Nat
  hour : Nat
  minute : Nat
  second : Nat
deriving DecidableEq, Repr

/-- Calendar fields of an epoch-seconds instant. -/
def dtfOfSecs (t : Int) : DTF :=
  let days := Int.ediv t 86400
  let sod : Nat := (Int.emod t 86400).toNat
  let c := civilFromDays days
  ⟨c.1, c.2.1, c.2.2, sod / 3600, sod / 60 % 60, sod % 60⟩

/-! ## Locale and `strftime`

`load_data` formats timestamps with `df['date_local'].dt.strftime('%Y.%m.%d %r')`.
`%r` expands to the locale's 12-hour-clock format (`t_fmt_ampm`): under the
C/POSIX locale it is `%I:%M:%S %p`, but many locales define it differently
(several glibc locales define it as the empty string), and `%p` uses the
locale's AM/PM strings.  We model the locale by those two ingredients. -/

structure Locale where
  tFmtAmpm : String
  amStr : String
  pmStr : String
deriving DecidableEq, Repr

/-- The C/POSIX locale: `t_fmt_ampm = "%I:%M:%S %p"`, AM/PM markers. -/
def posixLocale : Locale := ⟨"%I:%M:%S %p", "AM", "PM"⟩

/-- A locale whose 12-hour-clock format is empty (as in several glibc
locales, e.g. `fr_FR`). -/
def emptyAmpmLocale : Locale := ⟨"", "", ""⟩

/-- Zero-padded two-digit rendering. -/
def pad2 (n : Nat) : String := if n < 10 then "0" ++ toString n else toString n

/-- 12-hour clock hour (`%I`): 0 → 12, 13 → 1, etc. -/
def hour12 (h : Nat) : Nat := (h + 11) % 12 + 1

/-- Expansion of a single `strftime` directive character. -/
def expandDir (loc : Locale) (f : DTF) (c : Char) : String :=
  if c = 'Y' then toString f.year
  else if c = 'm' then pad2 f.month
  else if c = 'd' then pad2 f.day
  else if c = 'I' then pad2 (hour12 f.hour)
  else if c = 'M' then pad2 f.minute
  else if c = 'S' then pad2 f.second
  else if c = 'p' then (if f.hour < 12 then loc.amStr else loc.pmStr)
  else if c = '%' then "%"
  else String.mk ['%', c]

/-- `strftime` interpreter without `%r` (used to expand `t_fmt_ampm`,
which never itself contains `%r`). -/
def strfBase (loc : Locale) (f : DTF) : List Char → String
  | [] => ""
  | '%' :: c :: rest => expandDir loc f c ++ strfBase loc f rest
  | c :: rest => String.mk [c] ++ strfBase loc f rest

/-- `strftime` interpreter: like `strfBase`, with `%r` expanding the
locale's `t_fmt_ampm` format. -/
def strfRun (loc : Locale) (f : DTF) : List Char → String
  | [] => ""
  | '%' :: 'r' :: rest => strfBase loc f loc.tFmtAmpm.data ++ strfRun loc f rest
  | '%' :: c :: rest => expandDir loc f c ++ strfRun loc f rest
  | c :: rest => String.mk [c] ++ strfRun loc f rest

/-- `strftime(fmt)` applied to the calendar fields of an instant. -/
def strftimeAt (loc : Locale) (fmt : String) (t : Int) : String :=
  strfRun loc (dtfOfSecs t) fmt.data

/-- The timestamp string `load_data` stores:
`df['date_local'].dt.strftime('%Y.%m.%d %r')` (src/amat.py line 60). -/
def fmtTimestamp (loc : Locale) (t : Int) : String :=
  strftimeAt loc "%Y.%m.%d %r" t

/-! ## Data model

A row of the enriched DataFrame.  Instants are epoch seconds; `text` is
`Option String` (pandas `NaN` = `none`); `contact` is `Option String`
because the contact column only exists when an id map was supplied. -/

structure Rec where
  chat_id : String
  guid : String
  text : Option String
  is_from_me : Bool
  date_utc : Int
  date_local : Int
  timestamp : String
  weekday : Nat
  hour : Nat
  length : Nat
  ioicon : String
  contact : Option String
deriving DecidableEq, Repr

/-- Column names of the enriched DataFrame. -/
inductive FieldName
  | chat_id | guid | text | is_from_me | date_utc | date_local
  | timestamp | weekday | hour | length | ioicon | contact
deriving DecidableEq, Repr

/-- A column value (for membership filters over arbitrary columns). -/
inductive FVal
  | s (v : String)
  | os (v : Option String)
  | b (v : Bool)
  | i (v : Int)
  | n (v : Nat)
deriving DecidableEq, Repr

/-- `row[field]` on the enriched DataFrame. -/
def getField (r : Rec) : FieldName → FVal
  | .chat_id => .s r.chat_id
  | .guid => .s r.guid
  | .text => .os r.text
  | .is_from_me => .b r.is_from_me
  | .date_utc => .i r.date_utc
  | .date_local => .i r.date_local
  | .timestamp => .s r.timestamp
  | .weekday => .n r.weekday
  | .hour => .n r.hour
  | .length => .n r.length
  | .ioicon => .s r.ioicon
  | .contact => .os r.contact

/-! ## Enrichment pipeline (`load_data`, src/amat.py lines 35-77)

The pickled Record Store: its rows (as produced by `sql2pandas.py`, which
already computes `length` and `ioicon`) plus flags recording whether the
required `date_utc` / `chat_id` columns are present.  The pickle read is
modelled as `Option RawTable` (`none` = the file cannot be read), the
YAML id-map read as `Option (Option IdMap)` (`none` = no id file given,
`some none` = the file cannot be parsed). -/

structure RawRec where
  chat_id : String
  guid : String
  text : Option String
  is_from_me : Bool
  date_utc : Int
  length : Nat
  ioicon : String
deriving DecidableEq, Repr

structure RawTable where
  hasDateUtc : Bool
  hasChatId : Bool
  rows : List RawRec
deriving DecidableEq, Repr

/-- The YAML id map: `chat_id` → display name. -/
def IdMap := List (String × String)

/-- `id_map.get(chat_id, 'other')` (src/amat.py line 76). -/
def idMapGet : IdMap → String → String
  | [], _ => "other"
  | (k, v) :: rest, c => if k = c then v else idMapGet rest c

/-- Process-wide environment state visible to the library: the active
locale (read by `strftime`) and other environment data the library never
reads. -/
structure Env where
  locale : Locale
  envVars : List (String × String)

/-- Python exceptions that can escape the library's functions.
`loadError` and `configError` are the error kinds named by the spec; the
code defines no such exception classes and never raises them — the
constructors exist only so the spec's claim can be stated. -/
inductive PyErr
  | loadError | configError | keyError | unboundLocalError | nameError | valueError
deriving DecidableEq, Repr

/-- Diagnostics `load_data` prints (and otherwise ignores). -/
inductive Warn
  | cantOpenPickle | cantOpenYaml
deriving DecidableEq, Repr

/-- Enrichment of one row (src/amat.py lines 59-65, 76):
`date_local = date_utc` converted to the configured fixed-offset zone
(minutes east of UTC) with the zone then stripped; `timestamp` via
`strftime('%Y.%m.%d %r')`; `weekday`/`hour` from `date_local`. -/
def enrichRow (tzMin : Int) (loc : Locale) (contact : Option String) (r : RawRec) : Rec :=
  let dl := r.date_utc + tzMin * 60
  { chat_id := r.chat_id, guid := r.guid, text := r.text,
    is_from_me := r.is_from_me, date_utc := r.date_utc, date_local := dl,
    timestamp := fmtTimestamp loc dl,
    weekday := weekdayOfDays (Int.ediv dl 86400),
    hour := (dtfOfSecs dl).hour,
    length := r.length, ioicon := r.ioicon, contact := contact }

/-- `load_data` (src/amat.py lines 35-77), with the ambient locale made
explicit.  Failure paths mirror the Python control flow:
* unreadable pickle: the bare `except` only prints, leaving `df`
  unbound, so the next line raises `UnboundLocalError`;
* missing `date_utc` column: `df['date_utc']` raises `KeyError` at once;
* unparsable YAML: the bare `except` only prints, leaving `id_map`
  unbound, so the lookup lambda raises a `NameError`;
* missing `chat_id` column: `x['chat_id']` raises `KeyError`. -/
def loadWith (pickle : Option RawTable) (idf : Option (Option IdMap))
    (tzMin : Int) (loc : Locale) : List Warn × Except PyErr (List Rec) :=
  match pickle with
  | none => ([.cantOpenPickle], .error .unboundLocalError)
  | some t =>
    if t.hasDateUtc then
      match idf with
      | none => ([], .ok (t.rows.map (enrichRow tzMin loc none)))
      | some none => ([.cantOpenYaml], .error .nameError)
      | some (some m) =>
        if t.hasChatId then
          ([], .ok (t.rows.map (fun r => enrichRow tzMin loc (some (idMapGet m r.chat_id)) r)))
        else ([], .error .keyError)
    else ([], .error .keyError)

/-- `load_data` as called in a process environment. -/
def load_data (pickle : Option RawTable) (idf : Option (Option IdMap))
    (tzMin : Int) (env : Env) : List Warn × Except PyErr (List Rec) :=
  loadWith pickle idf tzMin env.locale

/-! ## Filter layer -/

/-- `parse('Jan 1, 1900')`, the default start bound of `filt_date`. -/
def parsedDefaultStart : Int := 86400 * daysFromCivil 1900 1 1

/-- `parse('Jan 1, 2200')`, the default end bound of `filt_date`. -/
def parsedDefaultEnd : Int := 86400 * daysFromCivil 2200 1 1

/-- `filt_date` (src/amat.py lines 80-99):
`df[(df['date_local'] > parse(start)) & (df['date_local'] < parse(end))]`,
taking the already-parsed bounds. -/
def filt_date (df : List Rec) (start end_ : Int) : List Rec :=
  df.filter (fun r => decide (start < r.date_local) && decide (r.date_local < end_))

/-- `filt_any` (src/amat.py lines 102-120): `df[df[by].isin(vals)]`. -/
def filt_any (df : List Rec) (by_ : FieldName) (vals : List FVal) : List Rec :=
  df.filter (fun r => vals.contains (getField r by_))

/-! ## Search (src/amat.py lines 287-335)

`search` is `df[df['text'].str.contains(query, case=case)]`.  pandas
`str.contains` defaults to `regex=True`, so the query is compiled as a
regular expression (`re.IGNORECASE` when `case` is false); rows whose
`text` is NaN give NaN in the mask, and boolean indexing with such a
mask raises `ValueError`.  We embed the regex fragment the claims
exercise: literal characters and the `.` wildcard (which in Python
matches any character except a newline).  A query using any other
metacharacter is outside the model and `search` returns `none` for it. -/

inductive RTok
  | lit (c : Char)
  | dot
deriving DecidableEq, Repr

/-- Characters that are regex metacharacters in Python's `re`. -/
def regexMeta : List Char := ['*', '+', '?', '[', ']', '(', ')', '\x7b', '\x7d', '\\', '|', '^', '$']

/-- Compile a query into the modelled regex fragment (`none` if it uses
constructs beyond literals and `.`). -/
def lexRegex : List Char → Option (List RTok)
  | [] => some []
  | c :: rest =>
    if c = '.' then (lexRegex rest).map (RTok.dot :: ·)
    else if regexMeta.contains c then none
    else (lexRegex rest).map (RTok.lit c :: ·)

/-- One token against one character (`case` = case-sensitive). -/
def tokMatches (case : Bool) : RTok → Char → Bool
  | .dot, c => !(c = '\n')
  | .lit c, c' => if case then c = c' else c.toLower = c'.toLower

/-- Match the whole token list at the start of the character list. -/
def matchHere (case : Bool) : List RTok → List Char → Bool
  | [], _ => true
  | _ :: _, [] => false
  | t :: ts, c :: cs => tokMatches case t c && matchHere case ts cs

/-- `re.search`: does the pattern match at some position? -/
def reSearch (case : Bool) (ts : List RTok) : List Char → Bool
  | [] => matchHere case ts []
  | c :: rest => matchHere case ts (c :: rest) || reSearch case ts rest

/-- `search(df, query, case=False)` (src/amat.py lines 287-304). -/
def search (df : List Rec) (query : String) (case : Bool) :
    Option (Except PyErr (List Rec)) :=
  match lexRegex query.data with
  | none => none
  | some ts =>
    some (if df.any (fun r => r.text.isNone) then .error .valueError
          else .ok (df.filter (fun r => reSearch case ts (r.text.getD "").data)))

/-- `context_search(df, query, case=False, radius=5)` (src/amat.py lines
307-335), up to the printing: for each match it reconstructs the
contact's timeline with `filt_any(df, 'contact', pal).reset_index()`,
finds the first position `i` with the match's `date_local`, and slices
`chat.iloc[max(0, i-radius) : min(chat.shape[0]-1, i+radius+1)]`.  We
return, per match, the contact header and the sliced window of records
(highlighting and line-wrapping are presentation, dropped here). -/
def context_search (df : List Rec) (query : String) (case : Bool) (radius : Nat) :
    Option (Except PyErr (List (Option String × List Rec))) :=
  match search df query case with
  | none => none
  | some (.error e) => some (.error e)
  | some (.ok res) =>
    some (.ok (res.map (fun row =>
      let pal := row.contact
      let chat := filt_any df .contact [.os pal]
      let i := chat.findIdx (fun r => decide (r.date_local = row.date_local))
      let lo := i - radius
      let hi := min (chat.length - 1) (i + radius + 1)
      (pal, (chat.drop lo).take (hi - lo)))))

/-! ## Categorical breakdown (`breakdown`, src/amat.py lines 222-269)

`totals = df.groupby(by).count()['guid']` is the per-category record
count (we take `by = 'contact'`, the default; rows whose contact is NaN
are dropped by `groupby`); `pcnt` is the percentage share.  Each loop
iteration relabels categories with `pcnt > slivers[i]` by themselves and
the rest as `'other'`, groups and sums into a pie chart, then keeps only
the rows with `pcnt < slivers[i]`, stopping if none remain, else
recomputes `pcnt` against the remainder's total.  Charts are kept as
association lists label ↦ percentage; `groupby` only affects row order,
which is presentational for a pie chart. -/

/-- Count an occurrence of `k`, first-occurrence key order. -/
def bumpCount : List (String × Nat) → String → List (String × Nat)
  | [], k => [(k, 1)]
  | (k', n) :: rest, k =>
    if k' = k then (k', n + 1) :: rest else (k', n) :: bumpCount rest k

/-- `df.groupby(by).count()['guid']`: per-value counts of a column. -/
def countsBy (keys : List String) : List (String × Nat) :=
  keys.foldl bumpCount []

/-- `totals['guid'].sum()`. -/
def totalOf (tot : List (String × Nat)) : Nat := (tot.map Prod.snd).sum

/-- `pcnt` of a count against a totals table: `n / total * 100`. -/
def pcntVal (tot : List (String × Nat)) (n : Nat) : ℚ :=
  (n : ℚ) / (totalOf tot : ℚ) * 100

/-- The totals table with its `pcnt` column. -/
def pcntTable (tot : List (String × Nat)) : List (String × ℚ) :=
  tot.map (fun e => (e.1, pcntVal tot e.2))

/-- Add `v` under key `k`, summing with an existing entry. -/
def addQ : List (String × ℚ) → String → ℚ → List (String × ℚ)
  | [], k, v => [(k, v)]
  | (k', v') :: rest, k, v =>
    if k' = k then (k', v' + v) :: rest else (k', v') :: addQ rest k v

/-- `temp.groupby(by).sum()` over an already-relabelled pcnt table. -/
def groupSumQ (l : List (String × ℚ)) : List (String × ℚ) :=
  l.foldl (fun acc e => addQ acc e.1 e.2) []

/-- `x[by] if x['pcnt'] > slivers[i] else 'other'` (src/amat.py line 256). -/
def relabel (s : ℚ) (e : String × ℚ) : String × ℚ :=
  (if s < e.2 then e.1 else "other", e.2)

/-- The pie chart plotted at one cascade stage. -/
def chartOf (s : ℚ) (ptot : List (String × ℚ)) : List (String × ℚ) :=
  groupSumQ (ptot.map (relabel s))

/-- `totals[totals['pcnt'] < slivers[i]]` (src/amat.py line 265). -/
def remainderOf (tot : List (String × Nat)) (s : ℚ) : List (String × Nat) :=
  tot.filter (fun e => decide (pcntVal tot e.2 < s))

/-- The cascade loop (src/amat.py lines 252-269), returning the charts. -/
def cascade : List ℚ → List (String × Nat) → List (List (String × ℚ))
  | [], _ => []
  | s :: rest, tot =>
    chartOf s (pcntTable tot) ::
      (let rem := remainderOf tot s
       if rem.isEmpty then [] else cascade rest rem)

/-- `breakdown(df, slivers, by='contact')` up to the rendered charts. -/
def breakdown (df : List Rec) (slivers : List ℚ) : List (List (String × ℚ)) :=
  cascade slivers (countsBy (df.filterMap Rec.contact))

/-! ## Weekly heatmap (`weekly_heatmap`, src/amat.py lines 338-371)

`df.groupby(['weekday','hour']).count()['guid'].unstack(level=1)` then
`reindex(np.arange(7)).reindex(np.arange(24), axis=1).fillna(0)` is the
7×24 count grid (rows Monday→Sunday).  `np.roll(heatmap, -4)` has no
`axis` argument, so numpy flattens the 7×24 array row-major, rolls the
168 entries left by 4, and reshapes — it does *not* rotate each row's
columns.  `displayedCell` is the matrix `imshow` receives. -/

/-- The count grid before rolling: records with this weekday and hour. -/
def heatCount (df : List Rec) (w h : Nat) : Nat :=
  (df.filter (fun r => decide (r.weekday = w) && decide (r.hour = h))).length

/-- The grid flattened row-major. -/
def flatHeat (df : List Rec) (k : Nat) : Nat := heatCount df (k / 24) (k % 24)

/-- `np.roll(heatmap, -4)` on the flattened 168-entry array. -/
def rolledHeat (df : List Rec) (k : Nat) : Nat := flatHeat df ((k + 4) % 168)

/-- Entry `(row, col)` of the displayed matrix. -/
def displayedCell (df : List Rec) (row col : Nat) : Nat :=
  rolledHeat df (row * 24 + col)

/-- The displayed cell that, under the intended rotation (leftmost
column = 4am), stands for weekday `w` and hour `h`: display column
`(h - 4) mod 24`. -/
def displayedHourCell (df : List Rec) (w h : Nat) : Nat :=
  displayedCell df w ((h + 20) % 24)

/-! ## Spec-side definitions (stated from the spec's words, for
comparison with the code-side definitions above) -/

/-- Is the first list a prefix of the second (boolean)? -/
def isPrefixB : List Char → List Char → Bool
  | [], _ => true
  | _ :: _, [] => false
  | c :: cs, d :: ds => c = d && isPrefixB cs ds

/-- Is the first list a contiguous sublist of the second (boolean)? -/
def isInfixB (q : List Char) : List Char → Bool
  | [] => isPrefixB q []
  | d :: ds => isPrefixB q (d :: ds) || isInfixB q ds

/-- Modelled from the spec: "substring match of `query` against each
record's `text`", case-insensitively when `case` is false. -/
def substrMatch (query text : String) (case : Bool) : Bool :=
  if case then isInfixB query.data text.data
  else isInfixB (query.data.map Char.toLower) (text.data.map Char.toLower)

/-- Modelled from the spec: the timestamp format
`YYYY.MM.DD hh:mm:ss AM/PM` rendered from the calendar fields of
`date_local`. -/
def specTimestamp (t : Int) : String :=
  let f := dtfOfSecs t
  toString f.year ++ "." ++ pad2 f.month ++ "." ++ pad2 f.day ++ " " ++
    pad2 (hour12 f.hour) ++ ":" ++ pad2 f.minute ++ ":" ++ pad2 f.second ++ " " ++
    (if f.hour < 12 then "AM" else "PM")

/-- The per-key value total of an association chart: the sum of the
values carried by entries with the given label. -/
def keySum (l : List (String × ℚ)) (k : String) : ℚ :=
  ((l.filter (fun e => decide (e.1 = k))).map Prod.snd).sum

instance {ε α : Type _} [DecidableEq ε] [DecidableEq α] : DecidableEq (Except ε α) := fun
  | .error a, .error b => decidable_of_iff (a = b) (by simp)
  | .error _, .ok _ => isFalse (by simp)
  | .ok _, .error _ => isFalse (by simp)
  | .ok a, .ok b => decidable_of_iff (a = b) (by simp)

/-! ## Concrete tables used as test inputs -/

/-- A baseline enriched record for concrete examples. -/
def baseRec : Rec :=
  { chat_id := "c1", guid := "g", text := some "x", is_from_me := true,
    date_utc := 0, date_local := 0, timestamp := "", weekday := 0, hour := 0,
    length := 1, ioicon := "io", contact := some "A" }

/-- A record of contact "A" at instant `k` carrying the given text. -/
def ctxRec (k : Int) (txt : String) : Rec :=
  { baseRec with date_local := k, text := some txt }

/-- A 3-record timeline whose last record holds the search hit. -/
def ctxDf3 : List Rec := [ctxRec 1 "x", ctxRec 2 "x", ctxRec 3 "hit"]

/-- Record `k` of the 20-record timeline with the hit at position 10. -/
def ctxMk (k : Nat) : Rec := ctxRec k (if k = 10 then "hit" else "x")

/-- A 20-record timeline with the hit at position 10. -/
def ctxDf20 : List Rec := (List.range 20).map ctxMk

/-- Record `k` of the 20-record timeline with the hit at position 2. -/
def ctxMkB (k : Nat) : Rec := ctxRec k (if k = 2 then "hit" else "x")

/-- A 20-record timeline with the hit at position 2. -/
def ctxDf20b : List Rec := (List.range 20).map ctxMkB

/-- A record whose text is "abc". -/
def recAbc : Rec := { baseRec with text := some "abc" }

/-- A record containing "frabjous party" in lower case. -/
def recFrab : Rec := { baseRec with text := some "I went to the frabjous party" }

/-- A record with the given `weekday` and `hour` fields. -/
def heatRec (w h : Nat) : Rec := { baseRec with weekday := w, hour := h }

/-- One message on weekday 3 (Thursday) at hour 1. -/
def heatDf : List Rec := [heatRec 3 1]

/-- One message on weekday 2 (Wednesday) at hour 14. -/
def heatDf2 : List Rec := [heatRec 2 14]

/-- A record with the given contact label. -/
def brRec (c : String) : Rec := { baseRec with contact := some c }

/-- 20 records with contact shares A 50%, B 30%, C 15%, D 5%. -/
def brDf : List Rec :=
  List.replicate 10 (brRec "A") ++ List.replicate 6 (brRec "B") ++
    List.replicate 3 (brRec "C") ++ [brRec "D"]

/-- A raw Record Store row at the epoch. -/
def rawRec0 : RawRec :=
  { chat_id := "c1", guid := "g", text := some "x", is_from_me := true,
    date_utc := 0, length := 1, ioicon := "io" }

/-- A well-formed one-row Record Store. -/
def rawT : RawTable := ⟨true, true, [rawRec0]⟩

/-- A Record Store missing the `date_utc` column. -/
def rawTNoDate : RawTable := ⟨false, true, [rawRec0]⟩

/-- A process environment with the POSIX locale. -/
def envPosix : Env := ⟨posixLocale, []⟩

/-- The POSIX locale again, with different unrelated environment data. -/
def envPosix2 : Env := ⟨posixLocale, [("TERM", "xterm")]⟩

/-- A process environment with an empty 12-hour-clock locale format. -/
def envFr : Env := ⟨emptyAmpmLocale, []⟩

/-! ## Claim theorems -/

/-- Claim C1, evaluated at the failing input.  The claim says the printed
window covers indices `max(0, i-radius)` through `min(len-1, i+radius)`
inclusive of the match.  The code slices
`chat.iloc[max(0, i-radius) : min(len-1, i+radius+1)]` whose exclusive
end never reaches the last timeline index: on a 3-record timeline with
the match at position `i = 2` and radius 1, the window should be indices
1-2 including the match, but the code produces only index 1 and drops
the match itself.  The claim's own examples (position 10 of 20 with
radius 5 giving indices 5-15, and position 2 with radius 5 giving 0-7)
do hold, as the last two conjuncts show. -/
theorem context_search_window_bug :
    context_search ctxDf3 "hit" false 1 =
      some (Except.ok [(some "A", [ctxRec 2 "x"])]) ∧
    ctxRec 3 "hit" ∉ [ctxRec 2 "x"] ∧
    context_search ctxDf20 "hit" false 5 =
      some (Except.ok [(some "A", (((List.range 20).drop 5).take 11).map ctxMk)]) ∧
    context_search ctxDf20b "hit" false 5 =
      some (Except.ok [(some "A", ((List.range 20).take 8).map ctxMkB)]) := by
  exact ⟨by decide, by decide, by decide, by decide⟩

/-- Claim C2, evaluated at the failing input.  `search` feeds the query
to pandas `str.contains`, which compiles it as a regular expression by
default, so the query "a.c" matches the record "abc" even though "a.c"
is not a substring of "abc" — contradicting both the claim and the
function's docstring ("Filters messages containing the given string").
The claim's case-insensitivity example does hold: "Frabjous" matches a
record containing "frabjous party" (last two conjuncts). -/
theorem search_regex_not_substring :
    search [recAbc] "a.c" false = some (Except.ok [recAbc]) ∧
    substrMatch "a.c" "abc" false = false ∧
    search [recFrab] "Frabjous" false = some (Except.ok [recFrab]) ∧
    substrMatch "Frabjous" "I went to the frabjous party" false = true := by
  decide

/-- Claim C3 is false as stated: when the Record Store cannot be read,
`load_data` prints a diagnostic and swallows the exception, and the
failure then surfaces as an `UnboundLocalError` at the first use of the
unbound `df` — not as a `LoadError` (no such exception class exists in
the code). -/
theorem load_error_kinds_counterexample :
    (load_data none none 0 envPosix).2 = Except.error PyErr.unboundLocalError ∧
    (Except.error PyErr.unboundLocalError : Except PyErr (List Rec)) ≠
      Except.error PyErr.loadError := by
  decide

/-- Claim C3 as amended: an unreadable Record Store is only reported by
a printed warning and then surfaces as an `UnboundLocalError`; a Record
Store missing the required `date_utc` column raises a `KeyError` at the
point of detection; an unparsable Identity Map is only reported by a
printed warning and then surfaces as a `NameError` from the contact
lookup.  No partial table is returned on any of these paths, but the
errors are not the claimed `LoadError`/`ConfigError` kinds, and the
original read failures are swallowed at the point of detection. -/
theorem load_error_propagation :
    (∀ (idf : Option (Option IdMap)) (tz : Int) (env : Env),
      load_data none idf tz env =
        ([Warn.cantOpenPickle], Except.error PyErr.unboundLocalError)) ∧
    (∀ (t : RawTable) (idf : Option (Option IdMap)) (tz : Int) (env : Env),
      t.hasDateUtc = false →
        (load_data (some t) idf tz env).2 = Except.error PyErr.keyError) ∧
    (∀ (t : RawTable) (tz : Int) (env : Env),
      t.hasDateUtc = true →
        load_data (some t) (some none) tz env =
          ([Warn.cantOpenYaml], Except.error PyErr.nameError)) := by
  refine ⟨fun idf tz env => rfl, fun t idf tz env h => ?_, fun t tz env h => ?_⟩
  · simp [load_data, loadWith, h]
  · simp [load_data, loadWith, h]

theorem load_error_propagation_witness :
    (load_data (some rawTNoDate) none 0 envPosix).2 = Except.error PyErr.keyError ∧
    load_data (some rawT) (some none) 0 envPosix =
      ([Warn.cantOpenYaml], Except.error PyErr.nameError) :=
  ⟨load_error_propagation.2.1 rawTNoDate none 0 envPosix rfl,
   load_error_propagation.2.2 rawT 0 envPosix rfl⟩

/-- Claim C4, evaluated at the failing input.  The claim holds for hours
4-23 (first conjunct, and the claim's own weekday=2/hour=14 example in
the next two), but `np.roll(heatmap, -4)` without `axis=1` rolls the
flattened 7×24 grid, so the displayed columns standing for hours 0-3
show the counts of the *next* weekday: with a single record at
weekday=3, hour=1, the displayed cell for weekday=2, hour=1 reads 1
while the count of records with `weekday==2 and hour==1` is 0. -/
theorem weekly_heatmap_roll_bug :
    (∀ (df : List Rec) (w h : Nat), w < 7 → 4 ≤ h → h < 24 →
      displayedHourCell df w h = heatCount df w h) ∧
    displayedHourCell heatDf2 2 14 = 1 ∧
    heatCount heatDf2 2 14 = 1 ∧
    displayedHourCell heatDf 2 1 = 1 ∧
    heatCount heatDf 2 1 = 0 := by
  refine ⟨fun df w h hw h4 h24 => ?_, by decide, by decide, by decide, by decide⟩
  unfold displayedHourCell displayedCell rolledHeat flatHeat
  have hcol : (h + 20) % 24 = h - 4 := by omega
  rw [hcol]
  have h1 : (w * 24 + (h - 4) + 4) % 168 = w * 24 + h := by omega
  rw [h1]
  have h2 : (w * 24 + h) / 24 = w := by omega
  have h3 : (w * 24 + h) % 24 = h := by omega
  rw [h2, h3]

theorem weekly_heatmap_roll_bug_witness :
    displayedHourCell heatDf 3 5 = heatCount heatDf 3 5 :=
  weekly_heatmap_roll_bug.1 heatDf 3 5 (by decide) (by decide) (by decide)

/-- Claim C6 is false as stated: the timestamp is produced by
`strftime('%Y.%m.%d %r')`, and `%r` expands to the locale's
12-hour-clock convention, so the same `date_local` yields different
strings under different locale configurations. -/
theorem timestamp_locale_counterexample :
    fmtTimestamp posixLocale 0 ≠ fmtTimestamp emptyAmpmLocale 0 := by
  decide

/-- Claim C6 as amended: under the C/POSIX locale (where `%r` is
`%I:%M:%S %p`), the timestamp of every `date_local` is exactly the
spec's `YYYY.MM.DD hh:mm:ss AM/PM` rendering; the format is fixed per
locale but not locale-independent. -/
theorem timestamp_posix_format :
    ∀ t : Int, fmtTimestamp posixLocale t = specTimestamp t := by
  intro t
  apply String.ext
  simp [fmtTimestamp, strftimeAt, specTimestamp, strfRun, strfBase, expandDir,
    posixLocale]

/-- Claim C7: the date-range filter keeps exactly the records with
`start < date_local < end`, exclusive at both ends; a record whose
`date_local` equals either parsed bound is excluded; and with the
default bounds (Jan 1 1900 / Jan 1 2200) the corresponding side of the
conjunction is a no-op for any table whose records lie strictly between
the defaults. -/
theorem filt_date_exclusive_range (df : List Rec) (ps pe : Int) :
    (∀ r, r ∈ filt_date df ps pe ↔
      r ∈ df ∧ ps < r.date_local ∧ r.date_local < pe) ∧
    (∀ r ∈ df, r.date_local = ps ∨ r.date_local = pe →
      r ∉ filt_date df ps pe) ∧
    ((∀ r ∈ df, parsedDefaultStart < r.date_local ∧ r.date_local < parsedDefaultEnd) →
      filt_date df parsedDefaultStart pe =
        df.filter (fun r => decide (r.date_local < pe)) ∧
      filt_date df ps parsedDefaultEnd =
        df.filter (fun r => decide (ps < r.date_local))) := by
  refine ⟨fun r => ?_, fun r hr hor => ?_, fun hall => ⟨?_, ?_⟩⟩
  · simp [filt_date, List.mem_filter]
  · rcases hor with h | h <;> simp [filt_date, List.mem_filter, h]
  · refine List.filter_congr fun r hr => ?_
    simp [(hall r hr).1]
  · refine List.filter_congr fun r hr => ?_
    simp [(hall r hr).2]

theorem filt_date_exclusive_range_witness :
    baseRec ∉ filt_date [baseRec] 0 10 ∧
    filt_date [baseRec] parsedDefaultStart 10 =
      List.filter (fun r => decide (r.date_local < 10)) [baseRec] :=
  ⟨(filt_date_exclusive_range [baseRec] 0 10).2.1 baseRec (by simp) (Or.inl rfl),
   ((filt_date_exclusive_range [baseRec] 0 10).2.2 (by decide)).1⟩

/-- Claim C8: filtering by date range and filtering by field membership
commute, for every table, every pair of bounds and every field/value
selection. -/
theorem filt_date_filt_any_comm (df : List Rec) (start end_ : Int)
    (by_ : FieldName) (vals : List FVal) :
    filt_date (filt_any df by_ vals) start end_ =
      filt_any (filt_date df start end_) by_ vals := by
  unfold filt_date filt_any
  rw [List.filter_filter, List.filter_filter]
  exact List.filter_congr fun r hr => by rw [Bool.and_comm]

/-- Claim C9 is false as stated: two `load_data` calls with the same
Record Store, the same Identity Map and the same timezone can produce
different enriched tables, because the timestamp column follows the
process locale, which is not among the listed inputs. -/
theorem load_locale_counterexample :
    (load_data (some rawT) none 0 envPosix).2 ≠
      (load_data (some rawT) none 0 envFr).2 := by
  decide

/-- Claim C9 as amended: enrichment is a pure function of the Record
Store snapshot, the Identity Map, the timezone *and the process
locale* — two calls agreeing on all four (whatever the rest of the
environment) produce identical enriched tables. -/
theorem load_deterministic_given_locale (p : Option RawTable)
    (idf : Option (Option IdMap)) (tz : Int) (e1 e2 : Env)
    (h : e1.locale = e2.locale) :
    load_data p idf tz e1 = load_data p idf tz e2 := by
  simp only [load_data]
  rw [h]

theorem load_deterministic_given_locale_witness :
    load_data (some rawT) none 0 envPosix = load_data (some rawT) none 0 envPosix2 :=
  load_deterministic_given_locale (some rawT) none 0 envPosix envPosix2 rfl

/-! ### Association-list lemmas for the breakdown cascade -/

theorem mem_keys_addQ (k : String) (v : ℚ) (x : String) :
    ∀ (acc : List (String × ℚ)),
      x ∈ (addQ acc k v).map Prod.fst → x ∈ acc.map Prod.fst ∨ x = k := by
  intro acc
  induction acc with
  | nil =>
    intro hx
    simp only [addQ, List.map_cons, List.map_nil] at hx
    exact Or.inr (by simpa using hx)
  | cons e rest ih =>
    rcases e with ⟨k', v'⟩
    intro hx
    by_cases h : k' = k
    · rw [show addQ ((k', v') :: rest) k v = (k', v' + v) :: rest from by
        simp only [addQ, if_pos h]] at hx
      rw [List.map_cons] at hx
      rcases List.mem_cons.mp hx with h1 | h1
      · exact Or.inl (by rw [List.map_cons]; exact List.mem_cons.mpr (Or.inl h1))
      · exact Or.inl (by rw [List.map_cons]; exact List.mem_cons.mpr (Or.inr h1))
    · rw [show addQ ((k', v') :: rest) k v = (k', v') :: addQ rest k v from by
        simp only [addQ, if_neg h]] at hx
      rw [List.map_cons] at hx
      rcases List.mem_cons.mp hx with h1 | h1
      · exact Or.inl (by rw [List.map_cons]; exact List.mem_cons.mpr (Or.inl h1))
      · rcases ih h1 with h2 | h2
        · exact Or.inl (by rw [List.map_cons]; exact List.mem_cons.mpr (Or.inr h2))
        · exact Or.inr h2

theorem keys_groupSumQ_aux (l : List (String × ℚ)) :
    ∀ (acc : List (String × ℚ)) (x : String),
      x ∈ ((l.foldl (fun a e => addQ a e.1 e.2) acc).map Prod.fst) →
      x ∈ acc.map Prod.fst ∨ x ∈ l.map Prod.fst := by
  induction l with
  | nil => intro acc x hx; exact Or.inl hx
  | cons e rest ih =>
    intro acc x hx
    rcases ih (addQ acc e.1 e.2) x (by simpa using hx) with h1 | h1
    · rcases mem_keys_addQ e.1 e.2 x acc h1 with h2 | h2
      · exact Or.inl h2
      · exact Or.inr (by simp [h2])
    · exact Or.inr (by simp; exact Or.inr (by simpa using h1))

theorem mem_keys_groupSumQ (l : List (String × ℚ)) (x : String)
    (hx : x ∈ (groupSumQ l).map Prod.fst) : x ∈ l.map Prod.fst := by
  rcases keys_groupSumQ_aux l [] x hx with h | h
  · simp at h
  · exact h

theorem keySum_cons (e : String × ℚ) (l : List (String × ℚ)) (k : String) :
    keySum (e :: l) k = (if e.1 = k then e.2 else 0) + keySum l k := by
  by_cases h : e.1 = k <;> simp [keySum, List.filter_cons, h]

theorem keySum_addQ : ∀ (acc : List (String × ℚ)) (k0 : String) (v0 : ℚ) (k : String),
    keySum (addQ acc k0 v0) k = keySum acc k + (if k0 = k then v0 else 0) := by
  intro acc k0 v0 k
  induction acc with
  | nil =>
    by_cases h : k0 = k <;> simp [addQ, keySum, List.filter_cons, h]
  | cons e rest ih =>
    rcases e with ⟨k', v'⟩
    by_cases h : k' = k0
    · subst h
      by_cases h2 : k' = k
      · simp [addQ, keySum_cons, h2]; ring
      · simp [addQ, keySum_cons, h2]
    · simp only [addQ, if_neg h]
      rw [keySum_cons, keySum_cons, ih]
      ring

theorem keySum_foldl_aux (l : List (String × ℚ)) :
    ∀ (acc : List (String × ℚ)) (k : String),
      keySum (l.foldl (fun a e => addQ a e.1 e.2) acc) k =
        keySum acc k + keySum l k := by
  induction l with
  | nil => intro acc k; simp [keySum]
  | cons e rest ih =>
    intro acc k
    rw [List.foldl_cons, ih, keySum_addQ, keySum_cons]
    ring

theorem keySum_groupSumQ (l : List (String × ℚ)) (k : String) :
    keySum (groupSumQ l) k = keySum l k := by
  have h := keySum_foldl_aux l [] k
  simpa [groupSumQ, keySum] using h

theorem key_val_unique : ∀ (tot : List (String × Nat)) (c : String) (n m : Nat),
    (tot.map Prod.fst).Nodup → (c, n) ∈ tot → (c, m) ∈ tot → n = m := by
  intro tot c n m
  induction tot with
  | nil => intro _ hn _; simp at hn
  | cons e rest ih =>
    intro hnd hn hm
    rw [List.map_cons] at hnd
    have hhead : e.1 ∉ rest.map Prod.fst := (List.nodup_cons.mp hnd).1
    have htail : (rest.map Prod.fst).Nodup := (List.nodup_cons.mp hnd).2
    rcases List.mem_cons.mp hn with h1 | h1 <;> rcases List.mem_cons.mp hm with h2 | h2
    · have : (c, n) = (c, m) := h1.trans h2.symm
      exact congrArg Prod.snd this
    · exfalso
      apply hhead
      have hce : e.1 = c := by rw [← h1]
      rw [hce]
      exact List.mem_map.mpr ⟨(c, m), h2, rfl⟩
    · exfalso
      apply hhead
      have hce : e.1 = c := by rw [← h2]
      rw [hce]
      exact List.mem_map.mpr ⟨(c, n), h1, rfl⟩
    · exact ih htail h1 h2

theorem chartOf_keys (s : ℚ) (ptot : List (String × ℚ)) (x : String)
    (hx : x ∈ (chartOf s ptot).map Prod.fst) :
    x ∈ ptot.map Prod.fst ∨ x = "other" := by
  have h1 := mem_keys_groupSumQ (ptot.map (relabel s)) x hx
  simp [relabel] at h1
  rcases h1 with ⟨a, b, hmem, heq⟩
  by_cases h : s < b
  · rw [if_pos h] at heq
    exact Or.inl (by subst heq; exact List.mem_map.mpr ⟨(a, b), hmem, rfl⟩)
  · rw [if_neg h] at heq
    exact Or.inr heq.symm

theorem remainder_keys_sub (tot : List (String × Nat)) (s : ℚ) (x : String)
    (hx : x ∈ (remainderOf tot s).map Prod.fst) : x ∈ tot.map Prod.fst := by
  rcases List.mem_map.mp hx with ⟨e, he, rfl⟩
  exact List.mem_map.mpr ⟨e, (List.mem_filter.mp he).1, rfl⟩

theorem cascade_keys : ∀ (sl : List ℚ) (tot : List (String × Nat))
    (chart : List (String × ℚ)), chart ∈ cascade sl tot →
    ∀ k, k ∈ chart.map Prod.fst → k ∈ tot.map Prod.fst ∨ k = "other" := by
  intro sl
  induction sl with
  | nil => intro tot chart hc; simp [cascade] at hc
  | cons s rest ih =>
    intro tot chart hc k hk
    simp only [cascade, List.mem_cons] at hc
    rcases hc with hc | hc
    · subst hc
      rcases chartOf_keys s (pcntTable tot) k hk with h | h
      · exact Or.inl (by simpa [pcntTable, List.map_map, Function.comp] using h)
      · exact Or.inr h
    · by_cases he : (remainderOf tot s).isEmpty
      · simp [he] at hc
      · simp only [he, if_neg, Bool.false_eq_true, not_false_eq_true, if_false] at hc
        rcases ih (remainderOf tot s) chart hc k hk with h | h
        · exact Or.inl (remainder_keys_sub tot s k h)
        · exact Or.inr h

theorem keySum_relabel_other : ∀ (ptot : List (String × ℚ)) (s : ℚ),
    (∀ e ∈ ptot, e.1 ≠ "other") →
    keySum (ptot.map (relabel s)) "other" =
      ((ptot.filter (fun e => decide (e.2 ≤ s))).map Prod.snd).sum := by
  intro ptot s
  induction ptot with
  | nil => intro _; simp [keySum]
  | cons e rest ih =>
    intro hno
    have hne : e.1 ≠ "other" := hno e (by simp)
    have hih := ih (fun x hx => hno x (by simp [hx]))
    by_cases h : s < e.2
    · have hnl : ¬ (e.2 ≤ s) := not_le.mpr h
      simp [relabel, h, keySum_cons, hne, List.filter_cons, hnl, hih]
    · have hl : e.2 ≤ s := not_lt.mp h
      simp [relabel, h, keySum_cons, List.filter_cons, hl, hih]

/-- Claim C10: a category whose percentage share equals the stage
threshold exactly is merged into the stage chart's "other" slice (its
own label is absent from the chart, and the "other" slice sums all
shares `≤` the threshold, including it), yet it is excluded from the
remainder carried into the next stage (the remainder keeps only shares
strictly below the threshold), so its label appears in no chart of the
rest of the cascade. -/
theorem breakdown_threshold_boundary
    (tot : List (String × Nat)) (s : ℚ) (rest : List ℚ) (c : String) (n : Nat)
    (hmem : (c, n) ∈ tot) (hpc : pcntVal tot n = s)
    (hnodup : (tot.map Prod.fst).Nodup)
    (hc : c ≠ "other") (hoth : "other" ∉ tot.map Prod.fst) :
    c ∉ (chartOf s (pcntTable tot)).map Prod.fst ∧
    keySum (chartOf s (pcntTable tot)) "other" =
      (((pcntTable tot).filter (fun e => decide (e.2 ≤ s))).map Prod.snd).sum ∧
    c ∉ (remainderOf tot s).map Prod.fst ∧
    (∀ chart ∈ cascade rest (remainderOf tot s), c ∉ chart.map Prod.fst) := by
  have hcnot : c ∉ (remainderOf tot s).map Prod.fst := by
    intro hin
    rcases List.mem_map.mp hin with ⟨e, he, hfst⟩
    rcases List.mem_filter.mp he with ⟨hmem2, hlt⟩
    rcases e with ⟨c2, m⟩
    cases hfst
    have hnm : m = n := key_val_unique tot c2 m n hnodup hmem2 hmem
    rw [hnm, hpc] at hlt
    exact absurd (of_decide_eq_true hlt) (lt_irrefl s)
  refine ⟨?_, ?_, hcnot, ?_⟩
  · intro hin
    have h1 := mem_keys_groupSumQ ((pcntTable tot).map (relabel s)) c hin
    simp [relabel] at h1
    rcases h1 with ⟨a, b, hmem2, heq⟩
    by_cases h : s < b
    · rw [if_pos h] at heq
      subst heq
      rcases List.mem_map.mp hmem2 with ⟨e, he, hpair⟩
      rcases e with ⟨c2, m⟩
      have hfst : c2 = a := congrArg Prod.fst hpair
      have hsnd : pcntVal tot m = b := congrArg Prod.snd hpair
      rw [hfst] at he
      have hnm : m = n := key_val_unique tot a m n hnodup he hmem
      rw [hnm, hpc] at hsnd
      rw [← hsnd] at h
      exact absurd h (lt_irrefl s)
    · rw [if_neg h] at heq
      exact hc heq.symm
  · rw [chartOf, keySum_groupSumQ]
    apply keySum_relabel_other
    intro e he hfst
    apply hoth
    rcases List.mem_map.mp he with ⟨a, ha, hpair⟩
    have : a.1 = e.1 := congrArg Prod.fst hpair
    rw [← hfst, ← this]
    exact List.mem_map.mpr ⟨a, ha, rfl⟩
  · intro chart hchart hin
    rcases cascade_keys rest (remainderOf tot s) chart hchart c hin with h | h
    · exact hcnot h
    · exact hc h

theorem breakdown_threshold_boundary_witness :
    "B" ∉ (chartOf 20 (pcntTable [("A", 4), ("B", 1)])).map Prod.fst ∧
    "B" ∉ (remainderOf [("A", 4), ("B", 1)] 20).map Prod.fst :=
  ⟨(breakdown_threshold_boundary [("A", 4), ("B", 1)] 20 [10] "B" 1 (by decide)
      (by decide) (by decide) (by decide) (by decide)).1,
   (breakdown_threshold_boundary [("A", 4), ("B", 1)] 20 [10] "B" 1 (by decide)
      (by decide) (by decide) (by decide) (by decide)).2.2.1⟩

/-- Claim C5: the breakdown cascade.  On the 20-record table with
contact shares A 50%, B 30%, C 15%, D 5% and thresholds [20, 10], stage
1 is the chart A 50, B 30, other 20 (C and D merged) and stage 2 breaks
the remainder into C 75, D 25 percent of that remainder.  In general a
stage with an empty strict-below-threshold remainder ends the cascade,
and otherwise the next threshold is applied recursively to exactly the
remainder carried over from the previous stage. -/
theorem breakdown_cascade_spec :
    breakdown brDf [(20 : ℚ), 10] =
      [[("A", 50), ("B", 30), ("other", 20)], [("C", 75), ("D", 25)]] ∧
    (∀ (tot : List (String × Nat)) (s : ℚ) (rest : List ℚ),
      remainderOf tot s = [] →
        cascade (s :: rest) tot = [chartOf s (pcntTable tot)]) ∧
    (∀ (tot : List (String × Nat)) (s s' : ℚ) (rest : List ℚ),
      remainderOf tot s ≠ [] →
        cascade (s :: s' :: rest) tot =
          chartOf s (pcntTable tot) :: cascade (s' :: rest) (remainderOf tot s)) := by
  refine ⟨by decide, fun tot s rest h => by simp [cascade, h], fun tot s s' rest h => ?_⟩
  cases hrem : remainderOf tot s with
  | nil => exact absurd hrem h
  | cons a l => simp [cascade, hrem]

theorem breakdown_cascade_spec_witness :
    cascade [(50 : ℚ), 10] [("A", 1)] = [chartOf 50 (pcntTable [("A", 1)])] :=
  breakdown_cascade_spec.2.1 [("A", 1)] 50 [10] (by decide)

end Amat
